import Mathlib

/-!
Shallow embedding of the exa-chat-notifier delivery pipeline:
the idempotency cache, the retrying HTTP client, the batch manager
and the notifier dispatcher, translated from the TypeScript sources.
Times are naturals (milliseconds); JS `Date.now()` is passed in
explicitly as a `now` argument wherever the source reads the clock.
-/

namespace ChatNotifier

/-! ### src/utils/truncate.ts -/

/-- `truncateMessage`, translated from `src/utils/truncate.ts`:
if `text.length <= maxLength` return `text`; else if `maxLength <= 1`
return the ellipsis; else `text.substring(0, maxLength - 1) + '…'`. -/
def truncateMessage (text : String) (maxLength : Nat) : String :=
  if text.length ≤ maxLength then text
  else if maxLength ≤ 1 then "…"
  else String.mk (text.toList.take (maxLength - 1)) ++ "…"

/-! ### src/idempotency-cache.ts

The JS `Map<string, CacheEntry>` is modelled as an association list with
at most one binding per key (`Map.set` overwrites in place, `Map.delete`
removes the binding). -/

/-- Lookup in the association list modelling `Map.get`. -/
def getEntry {α : Type} : List (String × α) → String → Option α
  | [], _ => none
  | (k', v) :: rest, k => if k' = k then some v else getEntry rest k

/-- `Map.set`: overwrite in place if present, else append. -/
def setEntry {α : Type} : List (String × α) → String → α → List (String × α)
  | [], k, v => [(k, v)]
  | (k', v') :: rest, k, v =>
    if k' = k then (k, v) :: rest else (k', v') :: setEntry rest k v

/-- `Map.delete`: remove the binding for the key. -/
def delEntry {α : Type} : List (String × α) → String → List (String × α)
  | [], _ => []
  | (k', v) :: rest, k => if k' = k then rest else (k', v) :: delEntry rest k

/-- State of `IdempotencyCache`: the entry map and the configured TTL. -/
structure IdempotencyCache where
  entries : List (String × Nat)
  ttlMs : Nat
deriving DecidableEq, Repr

/-- `IdempotencyCache.has(key)`: absent keys report false; an entry with
`now > expiresAt` is deleted and reported false; otherwise true.
Returns the updated cache alongside the answer (lazy eviction side
effect of the read path). -/
def IdempotencyCache.has (c : IdempotencyCache) (key : String) (now : Nat) :
    Bool × IdempotencyCache :=
  match getEntry c.entries key with
  | none => (false, c)
  | some expiresAt =>
    if now > expiresAt then (false, { c with entries := delEntry c.entries key })
    else (true, c)

/-- `IdempotencyCache.set(key)`: store `expiresAt = now + ttlMs`. -/
def IdempotencyCache.set (c : IdempotencyCache) (key : String) (now : Nat) :
    IdempotencyCache :=
  { c with entries := setEntry c.entries key (now + c.ttlMs) }

/-- `IdempotencyCache.size` accessor. -/
def IdempotencyCache.size (c : IdempotencyCache) : Nat :=
  c.entries.length

/-! ### src/config.ts -/

/-- State of `ConfigManager` after construction: the named webhook map
(keys already lower-cased by construction) and the optional default. -/
structure ConfigManager where
  webhooks : List (String × String)
  defaultWebhook : Option String
deriving DecidableEq, Repr

/-- `ConfigManager.getWebhook(name?)`: no name resolves to the default
webhook or throws; a name is looked up lower-cased, falling back to the
default webhook when absent, and throws when neither exists. -/
def ConfigManager.getWebhook (cm : ConfigManager) (name : Option String) :
    Except String String :=
  match name with
  | none =>
    match cm.defaultWebhook with
    | some u => .ok u
    | none => .error "No default webhook configured"
  | some n =>
    match getEntry cm.webhooks n.toLower with
    | some u => .ok u
    | none =>
      match cm.defaultWebhook with
      | some u => .ok u
      | none =>
        .error ("Webhook '" ++ n ++ "' not found and no default webhook configured")

/-! ### src/http-client.ts -/

/-- What one `fetch` inside `HttpClient.post` can produce: a network
error (the promise rejects) or an HTTP response. -/
inductive AttemptOutcome where
  | netErr (msg : String)
  | resp (status : Nat) (statusText : String) (body : String)
deriving DecidableEq, Repr

/-- `response.ok` of node-fetch: status in the 2xx range. -/
def respOk (status : Nat) : Bool :=
  200 ≤ status && status < 300

/-- The error captured by the `catch` for one attempt: the network error
message, or `HTTP <status>: <statusText>` thrown on a non-ok response;
`none` when the attempt returns successfully. -/
def attemptError : AttemptOutcome → Option String
  | .netErr m => some m
  | .resp status statusText _ =>
    if respOk status then none
    else some ("HTTP " ++ toString status ++ ": " ++ statusText)

/-- Observable outcome of `HttpClient.post`: the returned response or the
thrown error, the number of attempts performed, and the backoff sleeps
performed (in order). -/
structure PostOut where
  result : Except String AttemptOutcome
  attempts : Nat
  sleeps : List Nat
deriving Repr

/-- The attempt loop of `HttpClient.post`, with `fuel` attempts remaining
(the current one included) and `attempt` the 1-based index of the current
attempt. On failure with attempts remaining it sleeps
`initialDelayMs * 2^(attempt-1)`; the first successful response returns
immediately; when the loop ends, the last captured error is thrown
(`Max retries reached` only when the loop never ran). -/
def postAux (responses : Nat → AttemptOutcome) (initialDelayMs : Nat) :
    Nat → Nat → Option String → PostOut
  | _, 0, lastError => ⟨.error (lastError.getD "Max retries reached"), 0, []⟩
  | attempt, fuel + 1, _ =>
    match attemptError (responses attempt) with
    | none => ⟨.ok (responses attempt), 1, []⟩
    | some e =>
      if fuel = 0 then ⟨.error e, 1, []⟩
      else
        let rest := postAux responses initialDelayMs (attempt + 1) fuel (some e)
        ⟨rest.result, rest.attempts + 1, initialDelayMs * 2 ^ (attempt - 1) :: rest.sleeps⟩

/-- `HttpClient.post`, with the network modelled as the map `responses`
from attempt index to outcome. -/
def HttpClient.post (responses : Nat → AttemptOutcome)
    (maxRetries initialDelayMs : Nat) : PostOut :=
  postAux responses initialDelayMs 1 maxRetries none

/-! ### src/batch-manager.ts

`flush()` runs synchronously from its guard check through the queue
splice and the invocation of `onFlush`; the only suspension point is the
`await` of `onFlush` itself, after which the `finally` clears the
`flushing` flag. The synchronous prefix is `flushStart`, the resumption
after `onFlush` settles is `flushFinish`; interleavings of concurrent
calls are traces of the `BMStep` relation below. -/

/-- `BatchItem` of `src/batch-manager.ts`. -/
structure BatchItem (P : Type) where
  payload : P
  webhookName : Option String
deriving DecidableEq, Repr

/-- The `BatchManagerOptions` fields that drive behaviour
(`onFlush` is the callback, represented by the trace events). -/
structure BMOptions where
  size : Nat
  intervalMs : Nat
  flushOnDestroy : Bool
deriving DecidableEq, Repr

/-- Mutable state of a `BatchManager`: the queue, the `flushing` guard,
and whether the interval timer is still installed. -/
structure BMState (P : Type) where
  queue : List (BatchItem P)
  flushing : Bool
  timerActive : Bool
deriving DecidableEq, Repr

/-- `BatchManager.add`: push onto the queue tail; the returned flag says
whether `queue.length >= size` held after the push, i.e. whether a flush
was scheduled via `setImmediate` (never run inline). -/
def BMState.add {P : Type} (s : BMState P) (opts : BMOptions) (payload : P)
    (webhookName : Option String) : BMState P × Bool :=
  let q := s.queue ++ [⟨payload, webhookName⟩]
  ({ s with queue := q }, opts.size ≤ q.length)

/-- Synchronous prefix of `BatchManager.flush`: the
`flushing || queue.length === 0` guard makes it a no-op; otherwise it
sets `flushing`, splices the whole queue out and hands it to `onFlush`
(the returned batch). -/
def BMState.flushStart {P : Type} (s : BMState P) :
    Option (List (BatchItem P)) × BMState P :=
  if s.flushing || s.queue.isEmpty then (none, s)
  else (some s.queue, { s with queue := [], flushing := true })

/-- Resumption of `BatchManager.flush` after `onFlush` settles: the
`finally` clears `flushing` whether `onFlush` fulfilled (`ok = true`) or
threw (`ok = false`). -/
def BMState.flushFinish {P : Type} (s : BMState P) (_ok : Bool) : BMState P :=
  { s with flushing := false }

/-- A whole `flush()` call in which `onFlush` (when invoked) runs to
completion without interleaving: guarded no-op, or drain + settle. -/
def BMState.flushRun {P : Type} (s : BMState P) (ok : Bool) :
    Option (List (BatchItem P)) × BMState P :=
  match s.flushStart with
  | (none, s') => (none, s')
  | (some b, s') => (some b, s'.flushFinish ok)

/-- The interval timer callback invokes `flush` only when the timer is
still installed and the queue is non-empty. -/
def BMState.timerFires {P : Type} (s : BMState P) : Bool :=
  s.timerActive && !s.queue.isEmpty

/-- `BatchManager.destroy`: clear the timer first; then if
`flushOnDestroy` and the queue is non-empty, await one `flush()`
(which may still be a guarded no-op when a flush is in progress);
otherwise drop the queue. Returns the batch handed to `onFlush`, if
any. -/
def BMState.destroy {P : Type} (s : BMState P) (opts : BMOptions) (ok : Bool) :
    BMState P × Option (List (BatchItem P)) :=
  let s1 : BMState P := { s with timerActive := false }
  if opts.flushOnDestroy && !s1.queue.isEmpty then
    match s1.flushRun ok with
    | (b, s2) => (s2, b)
  else ({ s1 with queue := [] }, none)

/-- Fold of `BatchManager.add` over a call sequence, counting how many
of the adds scheduled a flush. -/
def BMState.addAll {P : Type} : BMState P → BMOptions → List (P × Option String) →
    BMState P × Nat
  | s, _, [] => (s, 0)
  | s, opts, it :: items =>
    let r1 := s.add opts it.1 it.2
    let r2 := r1.1.addAll opts items
    (r2.1, (if r1.2 then 1 else 0) + r2.2)

/-- Events of one interleaved execution against a `BatchManager`. -/
inductive BMAction (P : Type) where
  /-- a `flush()` call that hits the `flushing || empty` guard -/
  | callNoop
  /-- a `flush()` call that passes the guard: drains the queue and
  starts `onFlush` with the drained batch -/
  | callBegin (batch : List (BatchItem P))
  /-- the awaited `onFlush` of the in-progress flush settles
  (fulfilled when `ok`, rejected otherwise); `finally` runs -/
  | finish (ok : Bool)
  /-- an `add` call appending one item -/
  | addI (item : BatchItem P)
deriving DecidableEq, Repr

/-- Is the action one of the `flush()` calls? -/
def BMAction.isCall {P : Type} : BMAction P → Bool
  | .callNoop => true
  | .callBegin _ => true
  | _ => false

/-- Is the action a guard-passing `flush()` call (an `onFlush`
invocation)? -/
def BMAction.isBegin {P : Type} : BMAction P → Bool
  | .callBegin _ => true
  | _ => false

/-- Is the action the settling of an in-progress `onFlush`? -/
def BMAction.isFinish {P : Type} : BMAction P → Bool
  | .finish _ => true
  | _ => false

/-- Is the action an `add` call? -/
def BMAction.isAdd {P : Type} : BMAction P → Bool
  | .addI _ => true
  | _ => false

/-- Concatenation, in order, of all batches handed to `onFlush` in a
trace. -/
def flushedConcat {P : Type} : List (BMAction P) → List (BatchItem P)
  | [] => []
  | .callBegin b :: tr => b ++ flushedConcat tr
  | _ :: tr => flushedConcat tr

/-- The items appended by `add` calls in a trace, in order. -/
def addedItems {P : Type} : List (BMAction P) → List (BatchItem P)
  | [] => []
  | .addI i :: tr => i :: addedItems tr
  | _ :: tr => addedItems tr

/-- One atomic step of the `BatchManager`: the synchronous prefix of a
`flush()` call, the settling of an in-progress `onFlush`, or an `add`.
Guards are exactly those of `flushStart` / the `finally` resumption. -/
inductive BMStep {P : Type} : BMState P → BMAction P → BMState P → Prop where
  | callNoop (s : BMState P) :
    s.flushStart.1 = none → BMStep s .callNoop s
  | callBegin (s : BMState P) (b : List (BatchItem P)) :
    s.flushStart.1 = some b → BMStep s (.callBegin b) s.flushStart.2
  | finish (s : BMState P) (ok : Bool) :
    s.flushing = true → BMStep s (.finish ok) (s.flushFinish ok)
  | add (s : BMState P) (i : BatchItem P) :
    BMStep s (.addI i) { s with queue := s.queue ++ [i] }

/-- Reflexive-transitive closure of `BMStep` along a list of actions. -/
inductive BMTrace {P : Type} : BMState P → List (BMAction P) → BMState P → Prop where
  | nil (s : BMState P) : BMTrace s [] s
  | cons {s s' s'' : BMState P} {a : BMAction P} {tr : List (BMAction P)} :
    BMStep s a s' → BMTrace s' tr s'' → BMTrace s (a :: tr) s''

/-! ### src/notifier.ts

`NotifierImpl` over an abstract payload type `P`, event type `E` and
card type `C`. The schema collaborator's optional capabilities are
`Option`-valued, mirroring the `?.` presence checks of the source; the
private `extractEvent` helper (`p.event ?? p.type ?? p.status`) is the
abstract field lookup `extractEvent`. The outcome of
`httpClient.post` for a call is supplied by the environment as an
`Except String Unit` (fulfilled, or rejected with the thrown error) — the
retry behaviour inside one `post` is the `HttpClient.post` model above. -/

/-- The optional capabilities of an `EventSchema` used by the
dispatcher. -/
structure SchemaModel (P E : Type) where
  getIdempotencyKey : Option (P → String)
  isImportantEvent : Option (E → Bool)
  getWebhookName : Option (P → Option String)

/-- The `level` option. -/
inductive Level where
  | all
  | important
deriving DecidableEq, Repr

/-- Construction-time configuration of a `NotifierImpl`: the level, the
schema capabilities, the event-field lookup, the card builder, the
config manager and the options of the optional batch manager. -/
structure NotifierCfg (P E C : Type) where
  level : Level
  schema : SchemaModel P E
  extractEvent : P → Option E
  buildCard : P → C
  config : ConfigManager
  batchOpts : BMOptions

/-- Mutable state of a `NotifierImpl`: the idempotency cache (present
unless `idempotencyEnabled === false`) and the batch manager (present
when batching is enabled). -/
structure NotifierState (P : Type) where
  cache : Option IdempotencyCache
  bm : Option (BMState P)

/-- Result of one `notify` call as observed by the caller. -/
inductive NotifyResult (C : Type) where
  /-- returned early: dropped by the importance filter -/
  | filtered
  /-- returned early: idempotency duplicate -/
  | suppressed
  /-- batch mode: enqueued; the flag says whether this add scheduled a
  size-triggered flush -/
  | enqueued (scheduledFlush : Bool)
  /-- non-batch mode: delivered this card to this URL -/
  | delivered (url : String) (card : C)
  /-- non-batch mode: the error thrown to the caller -/
  | failed (err : String)
deriving DecidableEq, Repr

/-- Did the call reach the delivery client (successfully or not)? -/
def NotifyResult.attemptedDelivery {C : Type} : NotifyResult C → Bool
  | .delivered _ _ => true
  | .failed _ => true
  | _ => false

/-- Did the call enqueue into the batch manager? -/
def NotifyResult.didEnqueue {C : Type} : NotifyResult C → Bool
  | .enqueued _ => true
  | _ => false

/-- The importance-filter early return of `notify`: drop when
`level === 'important'`, the schema supplies `isImportantEvent`, the
event field is present and the predicate rejects it. -/
def importanceSkips {P E C : Type} (cfg : NotifierCfg P E C) (payload : P) : Bool :=
  match cfg.level, cfg.schema.isImportantEvent with
  | .important, some imp =>
    match cfg.extractEvent payload with
    | some e => !imp e
    | none => false
  | _, _ => false

/-- `webhookName ?? this.schema.getWebhookName?.(payload)` of
`sendSingle`. -/
def resolveName {P E C : Type} (cfg : NotifierCfg P E C) (payload : P)
    (webhookName : Option String) : Option String :=
  match webhookName with
  | some n => some n
  | none =>
    match cfg.schema.getWebhookName with
    | some f => f payload
    | none => none

/-- The `if (this.cache && this.schema.getIdempotencyKey) { if (key)
cache.set(key) }` block shared by `sendSingle` (on success) and the
batch branch of `notify` (on enqueue). -/
def markKey {P E C : Type} (cfg : NotifierCfg P E C) (st : NotifierState P)
    (payload : P) (now : Nat) : NotifierState P :=
  match st.cache, cfg.schema.getIdempotencyKey with
  | some c, some g =>
    if g payload = "" then st
    else { st with cache := some (c.set (g payload) now) }
  | _, _ => st

/-- `NotifierImpl.sendSingle`: build the card, resolve the webhook URL
(propagating a `ConfigManager` throw), post (outcome `po`), and on
success mark the idempotency key as seen. -/
def sendSingle {P E C : Type} (cfg : NotifierCfg P E C) (st : NotifierState P)
    (payload : P) (webhookName : Option String) (now : Nat)
    (po : Except String Unit) : NotifyResult C × NotifierState P :=
  let card := cfg.buildCard payload
  match cfg.config.getWebhook (resolveName cfg payload webhookName) with
  | .error e => (.failed e, st)
  | .ok url =>
    match po with
    | .error e => (.failed e, st)
    | .ok _ => (.delivered url card, markKey cfg st payload now)

/-- Effects a batch flush can emit. `NotifierImpl.sendBatch` logs
failures with `console.error`; the `onError` callback declared in
`NotifierOptions` is the other conceivable reporting channel. -/
inductive NotifyEffect (P : Type) where
  /-- `console.error('Failed to send notification in batch:', error)` -/
  | consoleError (msg : String)
  /-- an invocation of the `onError` option -/
  | onErrorCallback (payload : P) (err : String)
deriving DecidableEq, Repr

/-- Is the effect an invocation of the `onError` option? -/
def NotifyEffect.isOnErrorCallback {P : Type} : NotifyEffect P → Bool
  | .onErrorCallback _ _ => true
  | _ => false

/-- `NotifierImpl.sendBatch`: every item of the batch is sent through
`sendSingle` with its own outcome `deliver item.payload`; a failure is
caught and logged, never rethrown. Returns the final state, the
per-item results in batch order, and the emitted effects. -/
def sendBatch {P E C : Type} (cfg : NotifierCfg P E C) (st : NotifierState P)
    (batch : List (BatchItem P)) (now : Nat)
    (deliver : P → Except String Unit) :
    NotifierState P × List (P × NotifyResult C) × List (NotifyEffect P) :=
  match batch with
  | [] => (st, [], [])
  | item :: rest =>
    let rs := sendSingle cfg st item.payload item.webhookName now
      (deliver item.payload)
    let eff : List (NotifyEffect P) :=
      match rs.1 with
      | .failed e => [.consoleError ("Failed to send notification in batch: " ++ e)]
      | _ => []
    let out := sendBatch cfg rs.2 rest now deliver
    (out.1, (item.payload, rs.1) :: out.2.1, eff ++ out.2.2)

/-- `NotifierImpl.notify`: importance filter, idempotency check (with
the lazy-eviction side effect of `has`), then either enqueue into the
batch manager and mark the key, or send immediately. -/
def notify {P E C : Type} (cfg : NotifierCfg P E C) (st : NotifierState P)
    (payload : P) (webhookName : Option String) (now : Nat)
    (po : Except String Unit) : NotifyResult C × NotifierState P :=
  if importanceSkips cfg payload then (.filtered, st)
  else
    let checked : Bool × NotifierState P :=
      match st.cache, cfg.schema.getIdempotencyKey with
      | some c, some g =>
        let key := g payload
        if key = "" then (false, st)
        else
          let (h, c') := c.has key now
          (h, { st with cache := some c' })
      | _, _ => (false, st)
    if checked.1 then (.suppressed, checked.2)
    else
      let st1 := checked.2
      match st1.bm with
      | some bmst =>
        let (bm', sched) := bmst.add cfg.batchOpts payload webhookName
        let st2 : NotifierState P := { st1 with bm := some bm' }
        (.enqueued sched, markKey cfg st2 payload now)
      | none => sendSingle cfg st1 payload webhookName now po

/-! ### Concrete instantiation used for concrete scenarios

Payload, event and card types are all `Nat`; the schema supplies an
idempotency-key extractor mapping every payload to the key `"k"`
(two calls for the same logical event), no importance predicate and no
webhook-name extractor; the config holds only a default webhook. -/

/-- A concrete notifier configuration. -/
def cfgK : NotifierCfg Nat Nat Nat :=
  ⟨.all, ⟨some fun _ => "k", none, none⟩, fun _ => none, fun p => p,
    ⟨[], some "https://chat.googleapis.com/v1/spaces/S/messages?key=K&token=T"⟩,
    ⟨10, 5000, true⟩⟩

/-! ## Helper lemmas -/

theorem getEntry_setEntry_self {α : Type} (l : List (String × α)) (k : String) (v : α) :
    getEntry (setEntry l k v) k = some v := by
  induction l with
  | nil => simp [setEntry, getEntry]
  | cons hd tl ih =>
    by_cases h : hd.1 = k
    · simp [setEntry, h, getEntry]
    · simp [setEntry, h, getEntry, ih]

theorem length_delEntry {α : Type} (l : List (String × α)) (k : String) (v : α)
    (h : getEntry l k = some v) : (delEntry l k).length + 1 = l.length := by
  induction l with
  | nil => simp [getEntry] at h
  | cons hd tl ih =>
    by_cases hk : hd.1 = k
    · simp [delEntry, hk]
    · simp [getEntry, hk] at h
      simp [delEntry, hk, ih h]

theorem setEntry_ne {α : Type} (l : List (String × α)) (k k' : String) (v : α)
    (h : k' ≠ k) : getEntry (setEntry l k v) k' = getEntry l k' := by
  have hkk : ¬ k = k' := fun hh => h hh.symm
  induction l with
  | nil => simp [setEntry, getEntry, hkk]
  | cons hd tl ih =>
    obtain ⟨a, b⟩ := hd
    by_cases hk : a = k
    · have hne : ¬ a = k' := fun hh => h (hh.symm.trans hk)
      simp [setEntry, hk, getEntry, hkk, hne]
    · simp only [setEntry, hk, if_false, getEntry]
      by_cases hk2 : a = k' <;> simp [hk2, ih]

/-! ## C9 — truncation -/

/-- C9 (counterexample): the claim says `truncate(text, 1)` returns just
the ellipsis character for every text, but for the one-character text
`"a"` the length guard returns the text unchanged. -/
theorem truncate_len1_cex :
    truncateMessage "a" 1 = "a" ∧ ("a" : String) ≠ "…" := by
  constructor
  · rfl
  · decide

/-- C9 (amended): `truncate(text, len)` with `len ≥ text.length` returns
`text` unchanged; when `text` exceeds the bound and the bound is at
least 2, the result is the first `len - 1` characters followed by a
single ellipsis character and has exactly `len` characters;
`truncate(text, 1)` is just the ellipsis character for every text
*longer than one character*; and the 54-character example truncated to
20 is the 20-character string `"This is a very long…"` ending in the
ellipsis character. -/
theorem truncate_spec_amended :
    (∀ (text : String) (len : Nat), text.length ≤ len →
      truncateMessage text len = text) ∧
    (∀ (text : String) (len : Nat), len < text.length → 2 ≤ len →
      truncateMessage text len = String.mk (text.toList.take (len - 1)) ++ "…" ∧
      (truncateMessage text len).length = len) ∧
    (∀ text : String, 1 < text.length → truncateMessage text 1 = "…") ∧
    (truncateMessage "This is a very long message that needs to be truncated" 20 =
      "This is a very long…" ∧
     (truncateMessage "This is a very long message that needs to be truncated" 20).length = 20 ∧
     (truncateMessage "This is a very long message that needs to be truncated" 20).toList.getLast? =
       some '…') := by
  refine ⟨?_, ?_, ?_, ?_, ?_, ?_⟩
  · intro text len h
    simp [truncateMessage, h]
  · intro text len h h2
    have hnot : ¬ text.length ≤ len := by omega
    have hnot1 : ¬ len ≤ 1 := by omega
    have hdef : truncateMessage text len =
        String.mk (text.toList.take (len - 1)) ++ "…" := by
      simp [truncateMessage, hnot, hnot1]
    refine ⟨hdef, ?_⟩
    rw [hdef, String.length_append]
    have hlen : text.toList.length = text.length := rfl
    have h1 : (String.mk (text.toList.take (len - 1))).length = len - 1 := by
      show (text.toList.take (len - 1)).length = len - 1
      rw [List.length_take]
      omega
    have h2' : ("…" : String).length = 1 := rfl
    omega
  · intro text h
    have hnot : ¬ text.length ≤ 1 := by omega
    simp [truncateMessage, hnot]
  · rfl
  · rfl
  · rfl

/-- C9 (witness): the amended theorem applied at `"ab"` with bound 1 and
at the in-bound pair `("ab", 5)`. -/
theorem truncate_spec_amended_witness :
    truncateMessage "ab" 1 = "…" ∧ truncateMessage "ab" 5 = "ab" :=
  ⟨truncate_spec_amended.2.2.1 "ab" (by decide),
   truncate_spec_amended.1 "ab" 5 (by decide)⟩

/-! ## C5 — idempotency cache TTL -/

/-- C5 (counterexample): the claim says `has(key)` is true iff the key
was set and `now < expiry`; but a key set at time 0 with TTL 50 (expiry
50) still reports present at `now = 50`, because the code only evicts
when `now > expiresAt`. -/
theorem cache_has_boundary_cex :
    ((IdempotencyCache.set ⟨[], 50⟩ "k" 0).has "k" 50).1 = true ∧
    ¬ (50 < 0 + 50) := by
  constructor
  · rfl
  · decide

/-- C5 (amended): `has(key, now)` is true iff the key has an entry with
`now ≤ expiry` (the code treats `now = expiry` as still fresh); `set`
stores `expiry = now + ttl` with last write winning; and when `has`
finds the key expired (`expiry < now`) it deletes the entry before
returning false, so the cache size decreases by one. -/
theorem cache_has_ttl_amended :
    (∀ (c : IdempotencyCache) (k : String) (now : Nat),
      (c.has k now).1 = true ↔
        ∃ exp, getEntry c.entries k = some exp ∧ now ≤ exp) ∧
    (∀ (c : IdempotencyCache) (k : String) (t : Nat),
      getEntry (c.set k t).entries k = some (t + c.ttlMs)) ∧
    (∀ (c : IdempotencyCache) (k : String) (t₁ t₂ : Nat),
      getEntry ((c.set k t₁).set k t₂).entries k = some (t₂ + c.ttlMs)) ∧
    (∀ (c : IdempotencyCache) (k : String) (now exp : Nat),
      getEntry c.entries k = some exp → exp < now →
      c.has k now = (false, { c with entries := delEntry c.entries k }) ∧
      (delEntry c.entries k).length + 1 = c.size) := by
  refine ⟨?_, ?_, ?_, ?_⟩
  · intro c k now
    unfold IdempotencyCache.has
    cases hge : getEntry c.entries k with
    | none => simp
    | some exp =>
      by_cases h : now > exp
      · simp only [h, if_true, gt_iff_lt]
        constructor
        · intro hx
          exact absurd hx (by simp)
        · rintro ⟨e, he, hle⟩
          injection he with he'
          exact absurd hle (by omega)
      · simp only [h, if_false]
        exact ⟨fun _ => ⟨exp, rfl, by omega⟩, fun _ => trivial⟩
  · intro c k t
    exact getEntry_setEntry_self c.entries k (t + c.ttlMs)
  · intro c k t₁ t₂
    simpa [IdempotencyCache.set] using
      getEntry_setEntry_self (setEntry c.entries k (t₁ + c.ttlMs)) k (t₂ + c.ttlMs)
  · intro c k now exp hge hlt
    constructor
    · simp [IdempotencyCache.has, hge, hlt]
    · exact length_delEntry c.entries k exp hge

/-- C5 (witness): the amended theorem applied to a concrete cache: key
`"k"` with expiry 50 queried at 60 is evicted, and a fresh `set` is
visible at its stored expiry. -/
theorem cache_has_ttl_amended_witness :
    ((⟨[("k", 50)], 50⟩ : IdempotencyCache).has "k" 60 =
      (false, ⟨[], 50⟩) ∧ ([] : List (String × Nat)).length + 1 = 1) ∧
    getEntry ((⟨[], 77⟩ : IdempotencyCache).set "k" 3).entries "k" = some (3 + 77) :=
  ⟨cache_has_ttl_amended.2.2.2 ⟨[("k", 50)], 50⟩ "k" 60 50 (by decide) (by decide),
   cache_has_ttl_amended.2.1 ⟨[], 77⟩ "k" 3⟩

/-! ## C4 — retry with exponential backoff -/

theorem range_map_pow_succ (d a n : Nat) (ha : 1 ≤ a) :
    (List.range (n + 1)).map (fun i => d * 2 ^ (a - 1 + i)) =
      d * 2 ^ (a - 1) :: (List.range n).map (fun i => d * 2 ^ (a + i)) := by
  rw [List.range_succ_eq_map, List.map_cons, List.map_map]
  refine congrArg₂ _ (by simp) ?_
  refine List.map_congr_left ?_
  intro i _
  show d * 2 ^ (a - 1 + (i + 1)) = d * 2 ^ (a + i)
  have : a - 1 + (i + 1) = a + i := by omega
  rw [this]

theorem postAux_succ_ok (r : Nat → AttemptOutcome) (d a f : Nat) (le : Option String)
    (h : attemptError (r a) = none) :
    postAux r d a (f + 1) le = ⟨.ok (r a), 1, []⟩ := by
  unfold postAux
  rw [h]

theorem postAux_succ_last (r : Nat → AttemptOutcome) (d a : Nat) (le : Option String)
    (e : String) (h : attemptError (r a) = some e) :
    postAux r d a 1 le = ⟨.error e, 1, []⟩ := by
  unfold postAux
  rw [h]
  rfl

theorem postAux_succ_retry (r : Nat → AttemptOutcome) (d a f : Nat) (le : Option String)
    (e : String) (h : attemptError (r a) = some e) (hf : f ≠ 0) :
    postAux r d a (f + 1) le =
      ⟨(postAux r d (a + 1) f (some e)).result,
        (postAux r d (a + 1) f (some e)).attempts + 1,
        d * 2 ^ (a - 1) :: (postAux r d (a + 1) f (some e)).sleeps⟩ := by
  conv_lhs => unfold postAux
  rw [h]
  simp only [if_neg hf]

theorem postAux_allFail (r : Nat → AttemptOutcome) (d : Nat) :
    ∀ (f a : Nat) (le : Option String), 1 ≤ f → 1 ≤ a →
      (∀ j, a ≤ j → j < a + f → (attemptError (r j)).isSome = true) →
      postAux r d a f le =
        ⟨.error ((attemptError (r (a + f - 1))).getD ""), f,
          (List.range (f - 1)).map (fun i => d * 2 ^ (a - 1 + i))⟩ := by
  intro f
  induction f with
  | zero => intro a le h; omega
  | succ f ih =>
    intro a le _ ha hfail
    have hsome : (attemptError (r a)).isSome = true :=
      hfail a (Nat.le_refl a) (by omega)
    obtain ⟨e, he⟩ := Option.isSome_iff_exists.mp hsome
    cases f with
    | zero =>
      rw [postAux_succ_last r d a le e he]
      simp [he]
    | succ f' =>
      have hrec := ih (a + 1) (some e) (by omega) (by omega)
        (fun j hj1 hj2 => hfail j (by omega) (by omega))
      rw [postAux_succ_retry r d a (f' + 1) le e he (by omega), hrec]
      rw [show a + 1 + (f' + 1) - 1 = a + (f' + 1 + 1) - 1 from by omega]
      simp only [Nat.add_sub_cancel]
      rw [range_map_pow_succ d a f' ha]

theorem postAux_firstSuccess (r : Nat → AttemptOutcome) (d : Nat) :
    ∀ (m f a : Nat) (le : Option String), m < f → 1 ≤ a →
      (∀ j, a ≤ j → j < a + m → (attemptError (r j)).isSome = true) →
      attemptError (r (a + m)) = none →
      postAux r d a f le =
        ⟨.ok (r (a + m)), m + 1,
          (List.range m).map (fun i => d * 2 ^ (a - 1 + i))⟩ := by
  intro m
  induction m with
  | zero =>
    intro f a le hf ha hfail hok
    cases f with
    | zero => omega
    | succ f' =>
      have hok' : attemptError (r a) = none := by simpa using hok
      rw [postAux_succ_ok r d a f' le hok']
      simp
  | succ m ih =>
    intro f a le hf ha hfail hok
    cases f with
    | zero => omega
    | succ f' =>
      have hsome : (attemptError (r a)).isSome = true :=
        hfail a (Nat.le_refl a) (by omega)
      obtain ⟨e, he⟩ := Option.isSome_iff_exists.mp hsome
      have hrec := ih f' (a + 1) (some e) (by omega) (by omega)
        (fun j hj1 hj2 => hfail j (by omega) (by omega))
        (by rw [show a + 1 + m = a + (m + 1) from by omega]; exact hok)
      rw [postAux_succ_retry r d a f' le e he (by omega), hrec]
      rw [show a + 1 + m = a + (m + 1) from by omega]
      simp only [Nat.add_sub_cancel]
      rw [range_map_pow_succ d a m ha]

/-- C4 (confirmed): with `maxRetries ≥ 1`, `HttpClient.post` runs
attempts `1..maxRetries`; a network error is captured as its message
and a non-2xx response as `HTTP <status>: <statusText>`, a 2xx response
is never an error; if every attempt fails, the call throws the error
captured on the final attempt, having performed exactly `maxRetries`
attempts and slept `initialDelayMs * 2^(attempt-1)` after each attempt
but the last; the first successful attempt `k` short-circuits: exactly
`k` attempts are performed, the response is returned, and only the
`k - 1` sleeps before it happened. -/
theorem http_post_retry_spec :
    (∀ m, attemptError (.netErr m) = some m) ∧
    (∀ s st b, respOk s = true → attemptError (.resp s st b) = none) ∧
    (∀ s st b, respOk s = false →
      attemptError (.resp s st b) = some ("HTTP " ++ toString s ++ ": " ++ st)) ∧
    (∀ (r : Nat → AttemptOutcome) (d maxRetries : Nat), 1 ≤ maxRetries →
      (∀ j, 1 ≤ j → j ≤ maxRetries → (attemptError (r j)).isSome = true) →
      HttpClient.post r maxRetries d =
        ⟨.error ((attemptError (r maxRetries)).getD ""), maxRetries,
          (List.range (maxRetries - 1)).map (fun i => d * 2 ^ i)⟩) ∧
    (∀ (r : Nat → AttemptOutcome) (d maxRetries k : Nat), 1 ≤ k → k ≤ maxRetries →
      (∀ j, 1 ≤ j → j < k → (attemptError (r j)).isSome = true) →
      attemptError (r k) = none →
      HttpClient.post r maxRetries d =
        ⟨.ok (r k), k, (List.range (k - 1)).map (fun i => d * 2 ^ i)⟩) := by
  refine ⟨fun m => rfl, ?_, ?_, ?_, ?_⟩
  · intro s st b h
    simp [attemptError, h]
  · intro s st b h
    simp [attemptError, h]
  · intro r d maxRetries h1 hfail
    have h := postAux_allFail r d maxRetries 1 none h1 (Nat.le_refl 1)
      (fun j hj1 hj2 => hfail j hj1 (by omega))
    rw [show 1 + maxRetries - 1 = maxRetries from by omega] at h
    simp only [show (1 : Nat) - 1 = 0 from rfl, Nat.zero_add] at h
    exact h
  · intro r d maxRetries k hk1 hk2 hfail hok
    have h := postAux_firstSuccess r d (k - 1) maxRetries 1 none (by omega)
      (Nat.le_refl 1) (fun j hj1 hj2 => hfail j hj1 (by omega))
      (by rw [show 1 + (k - 1) = k from by omega]; exact hok)
    rw [show 1 + (k - 1) = k from by omega,
      show k - 1 + 1 = k from by omega] at h
    simp only [show (1 : Nat) - 1 = 0 from rfl, Nat.zero_add] at h
    exact h

/-- C4 (witness): a client with `maxRetries = 3` whose first two
attempts fail (a network error, then an HTTP 500) and whose third
attempt returns 200 performs exactly 3 attempts, sleeps `[300, 600]`,
and returns the 200 response; and a client whose single configured
attempt gets an HTTP 404 throws `HTTP 404: Not Found`. -/
theorem http_post_retry_spec_witness :
    HttpClient.post
      (fun j => if j = 1 then .netErr "ECONNRESET"
        else if j = 2 then .resp 500 "Internal Server Error" ""
        else .resp 200 "OK" "ok") 3 300 =
      ⟨.ok (.resp 200 "OK" "ok"), 3, [300, 600]⟩ ∧
    HttpClient.post (fun _ => .resp 404 "Not Found" "") 1 300 =
      ⟨.error "HTTP 404: Not Found", 1, []⟩ := by
  constructor
  · have := http_post_retry_spec.2.2.2.2
      (fun j => if j = 1 then .netErr "ECONNRESET"
        else if j = 2 then .resp 500 "Internal Server Error" ""
        else .resp 200 "OK" "ok") 300 3 3 (by omega) (by omega)
      (by decide) (by decide)
    rw [this]
    rfl
  · have := http_post_retry_spec.2.2.2.1
      (fun _ => .resp 404 "Not Found" "") 300 1 (by omega) (by decide)
    rw [this]
    rfl

/-! ## Batch manager lemmas -/

theorem flushStart_none_elim {P : Type} {s : BMState P}
    (h : s.flushStart.1 = none) :
    s.flushStart = (none, s) ∧ (s.flushing = true ∨ s.queue = []) := by
  cases hcc : (s.flushing || s.queue.isEmpty) with
  | true =>
    have heq : s.flushStart = (none, s) := by
      unfold BMState.flushStart
      rw [if_pos hcc]
    refine ⟨heq, ?_⟩
    cases hff : s.flushing with
    | true => exact Or.inl rfl
    | false =>
      rw [hff] at hcc
      right
      have : s.queue.isEmpty = true := by simpa using hcc
      exact List.isEmpty_iff.mp this
  | false =>
    exfalso
    unfold BMState.flushStart at h
    rw [if_neg (by simp [hcc])] at h
    simp at h

theorem flushStart_some_elim {P : Type} {s : BMState P} {b : List (BatchItem P)}
    (h : s.flushStart.1 = some b) :
    s.flushing = false ∧ s.queue = b ∧ s.queue ≠ [] ∧
    s.flushStart = (some b, { s with queue := [], flushing := true }) := by
  have hc : (s.flushing || s.queue.isEmpty) = false := by
    cases hcc : (s.flushing || s.queue.isEmpty) with
    | false => rfl
    | true =>
      unfold BMState.flushStart at h
      rw [if_pos hcc] at h
      simp at h
  have hf : s.flushing = false := by
    cases hff : s.flushing with
    | false => rfl
    | true => rw [hff] at hc; simp at hc
  have hqe : s.queue.isEmpty = false := by
    cases hqq : s.queue.isEmpty with
    | false => rfl
    | true => rw [hqq] at hc; simp at hc
  have heq0 : s.flushStart = (some s.queue, { s with queue := [], flushing := true }) := by
    unfold BMState.flushStart
    rw [if_neg (by simp [hc])]
  have hb : s.queue = b := by
    rw [heq0] at h
    simpa using h
  refine ⟨hf, hb, ?_, by rw [← hb]; exact heq0⟩
  intro hnil
  rw [hnil] at hqe
  simp at hqe

theorem trace_no_adds_empty {P : Type} {s s' : BMState P} {tr : List (BMAction P)}
    (h : BMTrace s tr s') :
    (∀ a ∈ tr, a.isAdd = false) → s.queue = [] →
    tr.countP BMAction.isBegin = 0 ∧ s'.queue = [] := by
  induction h with
  | nil => intro _ hq; exact ⟨rfl, hq⟩
  | cons hstep htr ih =>
    intro hnoadd hq
    cases hstep with
    | callNoop h1 =>
      have := ih (fun a ha => hnoadd a (List.mem_cons_of_mem _ ha)) hq
      simpa [List.countP_cons, BMAction.isBegin] using this
    | callBegin b h1 =>
      exfalso
      obtain ⟨-, -, hne, -⟩ := flushStart_some_elim h1
      exact hne hq
    | finish ok h1 =>
      have := ih (fun a ha => hnoadd a (List.mem_cons_of_mem _ ha)) hq
      simpa [List.countP_cons, BMAction.isBegin, BMState.flushFinish] using this
    | add i =>
      exfalso
      have := hnoadd (.addI i) (List.mem_cons_self _ _)
      simp [BMAction.isAdd] at this

theorem trace_flush_balance {P : Type} {s s' : BMState P} {tr : List (BMAction P)}
    (h : BMTrace s tr s') :
    tr.countP BMAction.isBegin + (if s.flushing then 1 else 0) =
      tr.countP BMAction.isFinish + (if s'.flushing then 1 else 0) := by
  induction h with
  | nil => rfl
  | cons hstep htr ih =>
    cases hstep with
    | callNoop h1 =>
      simpa [List.countP_cons, BMAction.isBegin, BMAction.isFinish] using ih
    | callBegin b h1 =>
      obtain ⟨hf, -, -, heq⟩ := flushStart_some_elim h1
      rw [heq] at ih
      simp only [List.countP_cons, BMAction.isBegin, BMAction.isFinish] at ih ⊢
      simp only [hf]
      simp at ih ⊢
      omega
    | finish ok h1 =>
      simp only [List.countP_cons, BMAction.isBegin, BMAction.isFinish,
        BMState.flushFinish] at ih ⊢
      simp only [h1]
      simp at ih ⊢
      omega
    | add i =>
      simpa [List.countP_cons, BMAction.isBegin, BMAction.isFinish] using ih

theorem trace_conservation {P : Type} {s s' : BMState P} {tr : List (BMAction P)}
    (h : BMTrace s tr s') :
    flushedConcat tr ++ s'.queue = s.queue ++ addedItems tr := by
  induction h with
  | nil => simp [flushedConcat, addedItems]
  | cons hstep htr ih =>
    cases hstep with
    | callNoop h1 =>
      simpa [flushedConcat, addedItems] using ih
    | callBegin b h1 =>
      obtain ⟨-, hqb, -, heq⟩ := flushStart_some_elim h1
      rw [heq] at ih
      simp only [flushedConcat, addedItems] at ih ⊢
      rw [List.append_assoc, ih]
      simp [hqb]
    | finish ok h1 =>
      simpa [flushedConcat, addedItems, BMState.flushFinish] using ih
    | add i =>
      simp only [flushedConcat, addedItems] at ih ⊢
      rw [ih]
      simp

theorem three_calls_one_begin {P : Type} (i : BatchItem P) (tA : Bool)
    (tr : List (BMAction P)) (s' : BMState P)
    (h : BMTrace ⟨[i], false, tA⟩ tr s')
    (hca : ∀ a ∈ tr, a.isCall = true ∨ a.isFinish = true)
    (hcount : tr.countP BMAction.isCall = 3) :
    tr.countP BMAction.isBegin = 1 := by
  cases h with
  | nil => simp at hcount
  | cons hstep htr =>
    cases hstep with
    | callNoop h1 =>
      exfalso
      obtain ⟨-, h2⟩ := flushStart_none_elim h1
      rcases h2 with h2 | h2 <;> simp at h2
    | callBegin b h1 =>
      obtain ⟨-, -, -, heq⟩ := flushStart_some_elim h1
      have hnoadd : ∀ a : BMAction P, a.isCall = true ∨ a.isFinish = true →
          BMAction.isAdd a = false := by
        intro a ha
        cases a <;> simp_all [BMAction.isCall, BMAction.isFinish, BMAction.isAdd]
      have hq1 : (BMState.flushStart ⟨[i], false, tA⟩).2.queue = [] := by
        rw [heq]
      obtain ⟨hzero, -⟩ := trace_no_adds_empty htr
        (fun a ha => hnoadd a (hca a (List.mem_cons_of_mem _ ha))) hq1
      simp [List.countP_cons, BMAction.isBegin, hzero]
    | finish ok h1 =>
      exfalso
      simp at h1
    | add j =>
      exfalso
      have := hca (.addI j) (List.mem_cons_self _ _)
      simp [BMAction.isCall, BMAction.isFinish] at this

theorem addAll_state {P : Type} (opts : BMOptions) :
    ∀ (items : List (P × Option String)) (s : BMState P),
      (s.addAll opts items).1 =
        { s with queue := s.queue ++ items.map (fun it => ⟨it.1, it.2⟩) } := by
  intro items
  induction items with
  | nil => intro s; simp [BMState.addAll]
  | cons it items ih =>
    intro s
    have hstep : (s.addAll opts (it :: items)).1 =
        ((s.add opts it.1 it.2).1.addAll opts items).1 := rfl
    rw [hstep, ih]
    simp [BMState.add]

theorem addAll_count_cons {P : Type} (opts : BMOptions) (s : BMState P)
    (it : P × Option String) (items : List (P × Option String)) :
    (s.addAll opts (it :: items)).2 =
      (if opts.size ≤ s.queue.length + 1 then 1 else 0) +
        ((s.add opts it.1 it.2).1.addAll opts items).2 := by
  have hstep : (s.addAll opts (it :: items)).2 =
      (if (s.add opts it.1 it.2).2 then 1 else 0) +
        ((s.add opts it.1 it.2).1.addAll opts items).2 := rfl
  rw [hstep]
  have : (s.add opts it.1 it.2).2 = decide (opts.size ≤ s.queue.length + 1) := by
    simp [BMState.add]
  rw [this]
  by_cases hle : opts.size ≤ s.queue.length + 1 <;> simp [hle]

theorem addAll_count_lt {P : Type} (opts : BMOptions) :
    ∀ (items : List (P × Option String)) (s : BMState P),
      s.queue.length + items.length < opts.size →
      (s.addAll opts items).2 = 0 := by
  intro items
  induction items with
  | nil => intro s _; rfl
  | cons it items ih =>
    intro s hlt
    rw [addAll_count_cons]
    simp only [List.length_cons] at hlt
    have hno : ¬ opts.size ≤ s.queue.length + 1 := by omega
    have hq : ((s.add opts it.1 it.2).1).queue.length = s.queue.length + 1 := by
      simp [BMState.add]
    have hrec := ih (s.add opts it.1 it.2).1 (by rw [hq]; omega)
    simp [hno, hrec]

theorem addAll_count_exact {P : Type} (opts : BMOptions) :
    ∀ (items : List (P × Option String)) (s : BMState P),
      s.queue.length + items.length = opts.size → 1 ≤ items.length →
      (s.addAll opts items).2 = 1 := by
  intro items
  induction items with
  | nil => intro s _ h; simp at h
  | cons it items ih =>
    intro s heq _
    rw [addAll_count_cons]
    simp only [List.length_cons] at heq
    have hq : ((s.add opts it.1 it.2).1).queue.length = s.queue.length + 1 := by
      simp [BMState.add]
    cases items with
    | nil =>
      have hyes : opts.size ≤ s.queue.length + 1 := by
        simp only [List.length_nil] at heq
        omega
      have : ((s.add opts it.1 it.2).1.addAll opts []).2 = 0 := rfl
      simp [hyes, this]
    | cons it2 items2 =>
      have hno : ¬ opts.size ≤ s.queue.length + 1 := by
        simp only [List.length_cons] at heq
        omega
      have hrec := ih (s.add opts it.1 it.2).1
        (by rw [hq]; simp only [List.length_cons] at heq ⊢; omega)
        (by simp)
      simp [hno, hrec]

/-! ## C2 — flush guard, drain, mutual exclusion -/

/-- C2 (confirmed): `flush()` is a no-op completing immediately when a
flush is in progress or the queue is empty; otherwise it atomically
drains the whole queue (leaving the live queue empty), hands exactly
that batch to `onFlush` once, and the `finally` resets the `flushing`
flag on fulfilment and on throw alike; over any interleaving, begun and
settled `onFlush` invocations stay balanced (so at most one `onFlush`
body is outstanding at a time), and the flushed batches plus the
remaining queue exactly partition the submitted items in order (no item
claimed by a flush is ever re-consumed); three concurrent `flush()`
calls against a one-item queue invoke `onFlush` exactly once. -/
theorem batch_flush_exclusion_spec {P : Type} :
    (∀ s : BMState P, s.flushing = true ∨ s.queue = [] →
      s.flushStart = (none, s)) ∧
    (∀ s : BMState P, s.flushing = false → s.queue ≠ [] →
      s.flushStart = (some s.queue, { s with queue := [], flushing := true })) ∧
    (∀ (s : BMState P) (ok : Bool),
      (s.flushFinish ok).flushing = false ∧ (s.flushFinish ok).queue = s.queue) ∧
    (∀ (s s' : BMState P) (tr : List (BMAction P)), BMTrace s tr s' →
      tr.countP BMAction.isBegin + (if s.flushing then 1 else 0) =
        tr.countP BMAction.isFinish + (if s'.flushing then 1 else 0)) ∧
    (∀ (s s' : BMState P) (tr : List (BMAction P)), BMTrace s tr s' →
      flushedConcat tr ++ s'.queue = s.queue ++ addedItems tr) ∧
    (∀ (i : BatchItem P) (tA : Bool) (tr : List (BMAction P)) (s' : BMState P),
      BMTrace ⟨[i], false, tA⟩ tr s' →
      (∀ a ∈ tr, a.isCall = true ∨ a.isFinish = true) →
      tr.countP BMAction.isCall = 3 →
      tr.countP BMAction.isBegin = 1) := by
  refine ⟨?_, ?_, ?_, ?_, ?_, ?_⟩
  · intro s h
    unfold BMState.flushStart
    rcases h with h | h
    · simp [h]
    · simp [h]
  · intro s hf hq
    unfold BMState.flushStart
    have hqe : s.queue.isEmpty = false := by
      cases hqq : s.queue with
      | nil => exact absurd hqq hq
      | cons a l => rfl
    simp [hf, hqe]
  · intro s ok
    exact ⟨rfl, rfl⟩
  · intro s s' tr h
    exact trace_flush_balance h
  · intro s s' tr h
    exact trace_conservation h
  · intro i tA tr s' h hca hcount
    exact three_calls_one_begin i tA tr s' h hca hcount

/-- C2 (witness): the drain equation applied to a concrete one-item
queue, and the three-concurrent-calls property applied to the explicit
interleaving begin-noop-noop of three `flush()` calls from that
state. -/
theorem batch_flush_exclusion_spec_witness :
    ((⟨[⟨(0 : Nat), none⟩], false, true⟩ : BMState Nat).flushStart =
      (some [⟨0, none⟩], ⟨[], true, true⟩)) ∧
    ([BMAction.callBegin [⟨(0 : Nat), none⟩], BMAction.callNoop,
        BMAction.callNoop].countP BMAction.isBegin = 1) := by
  constructor
  · exact batch_flush_exclusion_spec.2.1 ⟨[⟨0, none⟩], false, true⟩ rfl (by decide)
  · have step1 : BMStep (⟨[⟨(0 : Nat), none⟩], false, true⟩ : BMState Nat)
        (.callBegin [⟨0, none⟩]) ⟨[], true, true⟩ :=
      BMStep.callBegin _ _ rfl
    have step2 : BMStep (⟨[], true, true⟩ : BMState Nat) .callNoop ⟨[], true, true⟩ :=
      BMStep.callNoop _ rfl
    have htrace : BMTrace (⟨[⟨(0 : Nat), none⟩], false, true⟩ : BMState Nat)
        [BMAction.callBegin [⟨0, none⟩], BMAction.callNoop, BMAction.callNoop]
        ⟨[], true, true⟩ :=
      BMTrace.cons step1 (BMTrace.cons step2 (BMTrace.cons step2 (BMTrace.nil _)))
    exact batch_flush_exclusion_spec.2.2.2.2.2 ⟨0, none⟩ true _ _ htrace
      (by decide) (by decide)

/-! ## C3 — size-triggered flush -/

/-- C3 (confirmed): `add` appends at the tail and schedules an
asynchronous flush (returned flag, never run inline — the state it
returns has the item appended and `flushing` untouched) exactly when the
queue length reaches the `size` threshold right after the append; a
sequence of `N = size ≥ 1` adds against an empty idle queue schedules a
flush exactly at the N-th add and at none of the earlier ones, leaves
the N items queued in submission order, and the scheduled flush then
drains exactly those N items in FIFO order into a single `onFlush`
invocation. -/
theorem batch_add_size_trigger {P : Type} (opts : BMOptions)
    (items : List (P × Option String)) (tA : Bool)
    (hlen : items.length = opts.size) (hpos : 1 ≤ opts.size) :
    (∀ (s : BMState P) (p : P) (w : Option String),
      (s.add opts p w).1 = { s with queue := s.queue ++ [⟨p, w⟩] } ∧
      ((s.add opts p w).2 = true ↔ opts.size ≤ s.queue.length + 1)) ∧
    ((⟨[], false, tA⟩ : BMState P).addAll opts items).2 = 1 ∧
    (∀ k, k < items.length →
      ((⟨[], false, tA⟩ : BMState P).addAll opts (items.take k)).2 = 0) ∧
    ((⟨[], false, tA⟩ : BMState P).addAll opts items).1 =
      ⟨items.map (fun it => ⟨it.1, it.2⟩), false, tA⟩ ∧
    ((⟨[], false, tA⟩ : BMState P).addAll opts items).1.flushStart =
      (some (items.map (fun it => ⟨it.1, it.2⟩)), ⟨[], true, tA⟩) := by
  have hstate' : ((⟨[], false, tA⟩ : BMState P).addAll opts items).1 =
      ⟨items.map (fun it => ⟨it.1, it.2⟩), false, tA⟩ := by
    rw [addAll_state opts items (⟨[], false, tA⟩ : BMState P)]
    simp
  refine ⟨?_, ?_, ?_, hstate', ?_⟩
  · intro s p w
    constructor
    · rfl
    · simp [BMState.add]
  · exact addAll_count_exact opts items _ (by simpa using hlen) (by omega)
  · intro k hk
    refine addAll_count_lt opts (items.take k) _ ?_
    simp only [List.length_take, List.length_nil]
    omega
  · rw [hstate']
    have hmaplen : (items.map (fun it => (⟨it.1, it.2⟩ : BatchItem P))).length =
        opts.size := by
      rw [List.length_map, hlen]
    have hne : items.map (fun it => (⟨it.1, it.2⟩ : BatchItem P)) ≠ [] := by
      intro hx
      rw [hx] at hmaplen
      simp at hmaplen
      omega
    have hdrain : (⟨items.map (fun it => ⟨it.1, it.2⟩), false, tA⟩ : BMState P).flushStart =
        (some (items.map (fun it => ⟨it.1, it.2⟩)),
          { queue := [], flushing := true, timerActive := tA }) := by
      unfold BMState.flushStart
      have hqe : (items.map (fun it => (⟨it.1, it.2⟩ : BatchItem P))).isEmpty = false := by
        cases hxx : items.map (fun it => (⟨it.1, it.2⟩ : BatchItem P)) with
        | nil => exact absurd hxx hne
        | cons a l => rfl
      simp [hqe]
    exact hdrain

/-- C3 (witness): three adds with batch size 3 from an empty idle
queue: one scheduled flush, zero for the proper prefixes, and a drain
of exactly those three items in order. -/
theorem batch_add_size_trigger_witness :
    ((⟨[], false, true⟩ : BMState Nat).addAll ⟨3, 5000, true⟩
      [(1, none), (2, none), (3, none)]).2 = 1 ∧
    ((⟨[], false, true⟩ : BMState Nat).addAll ⟨3, 5000, true⟩
      [(1, none), (2, none), (3, none)]).1.flushStart =
      (some [⟨1, none⟩, ⟨2, none⟩, ⟨3, none⟩], ⟨[], true, true⟩) :=
  ⟨(batch_add_size_trigger ⟨3, 5000, true⟩ [(1, none), (2, none), (3, none)]
      true rfl (by decide)).2.1,
   (batch_add_size_trigger ⟨3, 5000, true⟩ [(1, none), (2, none), (3, none)]
      true rfl (by decide)).2.2.2.2⟩

/-! ## C7 — destroy -/

/-- C7 (counterexample): the claim says that for *every* scheduler
state, `destroy()` with `flushOnDestroy = true` and a non-empty queue
performs exactly one flush containing exactly the queued items; but when
a flush is already in progress (`flushing = true`, e.g. an `onFlush`
awaiting while a new item arrived after the drain), the inner `flush()`
call hits its guard: no batch is handed to `onFlush` and the item stays
queued unsent. -/
theorem destroy_inflight_cex :
    ((⟨[⟨(0 : Nat), none⟩], true, true⟩ : BMState Nat).destroy
        ⟨10, 5000, true⟩ true).2 = none ∧
    ((⟨[⟨(0 : Nat), none⟩], true, true⟩ : BMState Nat).destroy
        ⟨10, 5000, true⟩ true).1.queue = [⟨0, none⟩] := by
  constructor <;> rfl

/-- C7 (amended): for every scheduler state *in which no flush is in
progress*, `destroy()` stops the timer (afterwards the interval trigger
can never fire again); with `flushOnDestroy = true` and a non-empty
queue it performs exactly one flush containing exactly the queued items
and waits for it (final state drained, not flushing, timer off); with
`flushOnDestroy = false` it performs zero flushes and the queue becomes
empty. -/
theorem destroy_spec_amended {P : Type} (opts : BMOptions) (s : BMState P)
    (ok : Bool) (hnf : s.flushing = false) :
    (s.destroy opts ok).1.timerActive = false ∧
    (s.destroy opts ok).1.timerFires = false ∧
    (opts.flushOnDestroy = true → s.queue ≠ [] →
      s.destroy opts ok = (⟨[], false, false⟩, some s.queue)) ∧
    (opts.flushOnDestroy = false →
      s.destroy opts ok = (⟨[], false, false⟩, none)) := by
  have hA : opts.flushOnDestroy = true → s.queue ≠ [] →
      s.destroy opts ok = (⟨[], false, false⟩, some s.queue) := by
    intro hfd hq
    have hie : s.queue.isEmpty = false := by
      cases hqq : s.queue with
      | nil => exact absurd hqq hq
      | cons a l => rfl
    unfold BMState.destroy BMState.flushRun BMState.flushStart BMState.flushFinish
    simp [hfd, hie, hnf]
  have hB : opts.flushOnDestroy = false →
      s.destroy opts ok = (⟨[], false, false⟩, none) := by
    intro hfd
    unfold BMState.destroy
    simp [hfd, hnf]
  have hC : opts.flushOnDestroy = true → s.queue = [] →
      s.destroy opts ok = (⟨[], false, false⟩, none) := by
    intro hfd hq
    unfold BMState.destroy
    simp [hfd, hq, hnf]
  have hTA : (s.destroy opts ok).1.timerActive = false := by
    cases hfd : opts.flushOnDestroy with
    | true =>
      by_cases hq : s.queue = []
      · rw [hC hfd hq]
      · rw [hA hfd hq]
    | false => rw [hB hfd]
  have hTF : (s.destroy opts ok).1.timerFires = false := by
    unfold BMState.timerFires
    rw [hTA]
    rfl
  exact ⟨hTA, hTF, hA, hB⟩

/-- C7 (witness): the amended theorem applied to a two-item idle queue:
with `flushOnDestroy = true` the destroy flushes exactly those two
items; with `flushOnDestroy = false` it flushes nothing and empties the
queue. -/
theorem destroy_spec_amended_witness :
    ((⟨[⟨(1 : Nat), none⟩, ⟨2, none⟩], false, true⟩ : BMState Nat).destroy
        ⟨10, 5000, true⟩ true = (⟨[], false, false⟩, some [⟨1, none⟩, ⟨2, none⟩])) ∧
    ((⟨[⟨(1 : Nat), none⟩, ⟨2, none⟩], false, true⟩ : BMState Nat).destroy
        ⟨10, 5000, false⟩ true = (⟨[], false, false⟩, none)) :=
  ⟨(destroy_spec_amended ⟨10, 5000, true⟩ _ true rfl).2.2.1 rfl (by decide),
   (destroy_spec_amended ⟨10, 5000, false⟩ _ true rfl).2.2.2 rfl⟩

/-! ## Notifier evaluation lemmas -/

theorem sendSingle_ok_eval {P E C : Type} (cfg : NotifierCfg P E C)
    (st : NotifierState P) (p : P) (name : Option String) (now : Nat)
    (url : String)
    (hurl : cfg.config.getWebhook (resolveName cfg p name) = .ok url) :
    sendSingle cfg st p name now (.ok ()) =
      (.delivered url (cfg.buildCard p), markKey cfg st p now) := by
  unfold sendSingle
  rw [hurl]

theorem sendSingle_err_eval {P E C : Type} (cfg : NotifierCfg P E C)
    (st : NotifierState P) (p : P) (name : Option String) (now : Nat)
    (url e : String)
    (hurl : cfg.config.getWebhook (resolveName cfg p name) = .ok url) :
    sendSingle cfg st p name now (.error e) = (.failed e, st) := by
  unfold sendSingle
  rw [hurl]

theorem sendSingle_result_indep {P E C : Type} (cfg : NotifierCfg P E C)
    (st st' : NotifierState P) (p : P) (name : Option String) (now : Nat)
    (po : Except String Unit) :
    (sendSingle cfg st p name now po).1 = (sendSingle cfg st' p name now po).1 := by
  unfold sendSingle
  cases cfg.config.getWebhook (resolveName cfg p name) with
  | error e => rfl
  | ok url =>
    cases po with
    | error e => rfl
    | ok u => rfl

theorem markKey_eval {P E C : Type} (cfg : NotifierCfg P E C)
    (c : IdempotencyCache) (stb : Option (BMState P)) (g : P → String) (p : P)
    (now : Nat) (k : String)
    (hg : cfg.schema.getIdempotencyKey = some g)
    (hk : g p = k) (hne : k ≠ "") :
    markKey cfg ⟨some c, stb⟩ p now = ⟨some (c.set k now), stb⟩ := by
  unfold markKey
  simp [hg, hk, hne]

theorem notify_fresh_nonbatch {P E C : Type} (cfg : NotifierCfg P E C)
    (c : IdempotencyCache) (g : P → String) (p : P) (name : Option String)
    (now : Nat) (po : Except String Unit) (k : String)
    (hskip : importanceSkips cfg p = false)
    (hg : cfg.schema.getIdempotencyKey = some g)
    (hk : g p = k) (hne : k ≠ "")
    (hfresh : getEntry c.entries k = none) :
    notify cfg ⟨some c, none⟩ p name now po =
      sendSingle cfg ⟨some c, none⟩ p name now po := by
  unfold notify
  rw [if_neg (by simp [hskip])]
  simp [hg, hk, hne, IdempotencyCache.has, hfresh]

theorem notify_fresh_batch {P E C : Type} (cfg : NotifierCfg P E C)
    (c : IdempotencyCache) (bmst : BMState P) (g : P → String) (p : P)
    (name : Option String) (now : Nat) (po : Except String Unit) (k : String)
    (hskip : importanceSkips cfg p = false)
    (hg : cfg.schema.getIdempotencyKey = some g)
    (hk : g p = k) (hne : k ≠ "")
    (hfresh : getEntry c.entries k = none) :
    notify cfg ⟨some c, some bmst⟩ p name now po =
      (.enqueued (bmst.add cfg.batchOpts p name).2,
        ⟨some (c.set k now), some (bmst.add cfg.batchOpts p name).1⟩) := by
  unfold notify
  rw [if_neg (by simp [hskip])]
  simp [hg, hk, hne, IdempotencyCache.has, hfresh, markKey, BMState.add]

theorem notify_suppressed_eval {P E C : Type} (cfg : NotifierCfg P E C)
    (c : IdempotencyCache) (stb : Option (BMState P)) (g : P → String) (p : P)
    (name : Option String) (now : Nat) (po : Except String Unit) (k : String)
    (exp : Nat)
    (hskip : importanceSkips cfg p = false)
    (hg : cfg.schema.getIdempotencyKey = some g)
    (hk : g p = k) (hne : k ≠ "")
    (hhit : getEntry c.entries k = some exp) (hle : now ≤ exp) :
    notify cfg ⟨some c, stb⟩ p name now po = (.suppressed, ⟨some c, stb⟩) := by
  unfold notify
  rw [if_neg (by simp [hskip])]
  have hnot : ¬ now > exp := by omega
  simp [hg, hk, hne, IdempotencyCache.has, hhit, hnot]

theorem sendBatch_spec {P E C : Type} (cfg : NotifierCfg P E C) (now : Nat)
    (deliver : P → Except String Unit) :
    ∀ (batch : List (BatchItem P)) (st : NotifierState P),
      (sendBatch cfg st batch now deliver).2.1 =
        batch.map (fun item =>
          (item.payload, (sendSingle cfg st item.payload item.webhookName now
            (deliver item.payload)).1)) ∧
      (sendBatch cfg st batch now deliver).2.2 =
        (sendBatch cfg st batch now deliver).2.1.filterMap (fun pr =>
          match pr.2 with
          | .failed e =>
            some (.consoleError ("Failed to send notification in batch: " ++ e))
          | _ => none) := by
  intro batch
  induction batch with
  | nil => intro st; exact ⟨rfl, rfl⟩
  | cons item rest ih =>
    intro st
    have hcons1 : (sendBatch cfg st (item :: rest) now deliver).2.1 =
        (item.payload, (sendSingle cfg st item.payload item.webhookName now
          (deliver item.payload)).1) ::
          (sendBatch cfg (sendSingle cfg st item.payload item.webhookName now
            (deliver item.payload)).2 rest now deliver).2.1 := rfl
    have hcons2 : (sendBatch cfg st (item :: rest) now deliver).2.2 =
        (match (sendSingle cfg st item.payload item.webhookName now
            (deliver item.payload)).1 with
          | .failed e =>
            [NotifyEffect.consoleError ("Failed to send notification in batch: " ++ e)]
          | _ => ([] : List (NotifyEffect P))) ++
          (sendBatch cfg (sendSingle cfg st item.payload item.webhookName now
            (deliver item.payload)).2 rest now deliver).2.2 := rfl
    obtain ⟨ih1, ih2⟩ := ih (sendSingle cfg st item.payload item.webhookName now
      (deliver item.payload)).2
    constructor
    · rw [hcons1, ih1]
      refine congrArg₂ _ rfl ?_
      refine List.map_congr_left ?_
      intro it _
      exact congrArg _ (sendSingle_result_indep cfg _ st it.payload it.webhookName
        now (deliver it.payload))
    · rw [hcons2, ih2, hcons1, List.filterMap_cons]
      cases hres : (sendSingle cfg st item.payload item.webhookName now
          (deliver item.payload)).1 with
      | filtered => rfl
      | suppressed => rfl
      | enqueued sched => rfl
      | delivered u cc => rfl
      | failed e => rfl

/-! ## C8 — non-batch notify -/

/-- C8 (confirmed): in non-batch mode, a `notify` call that passes the
filter and holds a fresh non-empty idempotency key builds the card via
the card-builder collaborator, resolves the destination (the resolution
falls back to the default webhook when no name is given and when the
named webhook is absent), delivers it, and marks the key as seen
exactly on success: a successful delivery returns the delivered card
and URL with the key now cached, while a delivery failure propagates
the thrown error to the caller and leaves the cache (and whole notifier
state) unchanged. -/
theorem notify_single_mode_spec {P E C : Type} (cfg : NotifierCfg P E C)
    (c : IdempotencyCache) (g : P → String) (p : P) (name : Option String)
    (now : Nat) (k url e : String)
    (hskip : importanceSkips cfg p = false)
    (hg : cfg.schema.getIdempotencyKey = some g)
    (hk : g p = k) (hne : k ≠ "") (hfresh : getEntry c.entries k = none)
    (hurl : cfg.config.getWebhook (resolveName cfg p name) = .ok url) :
    notify cfg ⟨some c, none⟩ p name now (.ok ()) =
      (.delivered url (cfg.buildCard p), ⟨some (c.set k now), none⟩) ∧
    notify cfg ⟨some c, none⟩ p name now (.error e) =
      (.failed e, ⟨some c, none⟩) ∧
    (∀ (cm : ConfigManager) (d : String), cm.defaultWebhook = some d →
      cm.getWebhook none = .ok d ∧
      ∀ n, getEntry cm.webhooks n.toLower = none →
        cm.getWebhook (some n) = .ok d) := by
  refine ⟨?_, ?_, ?_⟩
  · rw [notify_fresh_nonbatch cfg c g p name now (.ok ()) k hskip hg hk hne hfresh,
      sendSingle_ok_eval cfg _ p name now url hurl,
      markKey_eval cfg c none g p now k hg hk hne]
  · rw [notify_fresh_nonbatch cfg c g p name now (.error e) k hskip hg hk hne hfresh,
      sendSingle_err_eval cfg _ p name now url e hurl]
  · intro cm d hd
    constructor
    · unfold ConfigManager.getWebhook
      simp [hd]
    · intro n hn
      unfold ConfigManager.getWebhook
      simp [hn, hd]

/-- C8 (witness): the theorem applied at the concrete configuration: a
successful delivery marks the key `"k"`; a failed delivery surfaces the
error `"boom"` and leaves the state untouched. -/
theorem notify_single_mode_spec_witness :
    notify cfgK ⟨some ⟨[], 1000⟩, none⟩ 7 none 0 (.ok ()) =
      (.delivered "https://chat.googleapis.com/v1/spaces/S/messages?key=K&token=T"
        (cfgK.buildCard 7),
        ⟨some ((⟨[], 1000⟩ : IdempotencyCache).set "k" 0), none⟩) ∧
    notify cfgK ⟨some ⟨[], 1000⟩, none⟩ 7 none 0 (.error "boom") =
      (.failed "boom", ⟨some ⟨[], 1000⟩, none⟩) :=
  ⟨(notify_single_mode_spec cfgK ⟨[], 1000⟩ (fun _ => "k") 7 none 0 "k"
      "https://chat.googleapis.com/v1/spaces/S/messages?key=K&token=T" "boom"
      rfl rfl rfl (by decide) rfl rfl).1,
   (notify_single_mode_spec cfgK ⟨[], 1000⟩ (fun _ => "k") 7 none 0 "k"
      "https://chat.googleapis.com/v1/spaces/S/messages?key=K&token=T" "boom"
      rfl rfl rfl (by decide) rfl rfl).2.1⟩

/-! ## C1 — idempotency suppression -/

/-- C1 (counterexample): the claim says that for every pair of `notify`
calls yielding the same idempotency key within the TTL window (cache
configured, extractor supplied), at most one delivery attempt occurs
and the second call returns without delivering. But in non-batch mode
the key is marked only on *success*: when the first call's delivery
fails (here with `HTTP 500`), nothing is cached, and the second call
fully delivers — two delivery attempts for the same key, the second one
not suppressed (TTL 1000 ms, calls at t=0 and t=10). -/
theorem notify_retry_after_failure_cex :
    (notify cfgK ⟨some ⟨[], 1000⟩, none⟩ 7 none 0
        (.error "HTTP 500: Internal Server Error")).1 =
      .failed "HTTP 500: Internal Server Error" ∧
    (notify cfgK (notify cfgK ⟨some ⟨[], 1000⟩, none⟩ 7 none 0
        (.error "HTTP 500: Internal Server Error")).2 7 none 10 (.ok ())).1 =
      .delivered "https://chat.googleapis.com/v1/spaces/S/messages?key=K&token=T" 7 ∧
    ((NotifyResult.failed "HTTP 500: Internal Server Error" :
        NotifyResult Nat).attemptedDelivery = true ∧
      (NotifyResult.delivered
        "https://chat.googleapis.com/v1/spaces/S/messages?key=K&token=T" (7 : Nat) :
        NotifyResult Nat).attemptedDelivery = true) := by
  refine ⟨by decide, by decide, by decide, by decide⟩

/-- C1 (amended): provided the first call's processing completes — in
non-batch mode its delivery succeeds, in batch mode it enqueues — every
second `notify` call with the same non-empty idempotency key within the
TTL window is suppressed: it returns without delivering and without
enqueuing, leaving the state unchanged. (In batch mode the key is
marked at enqueue time, so the second call is suppressed even before
the batch flushes; if a non-batch first delivery fails, the key is not
marked and a retry attempts delivery again.) -/
theorem notify_idempotent_suppression_amended {P E C : Type}
    (cfg : NotifierCfg P E C) (c : IdempotencyCache) (g : P → String)
    (p p2 : P) (name name2 : Option String) (now1 now2 : Nat)
    (po2 : Except String Unit) (k url : String)
    (hskip : importanceSkips cfg p = false)
    (hskip2 : importanceSkips cfg p2 = false)
    (hg : cfg.schema.getIdempotencyKey = some g)
    (hk : g p = k) (hk2 : g p2 = k) (hne : k ≠ "")
    (hfresh : getEntry c.entries k = none)
    (ht : now2 ≤ now1 + c.ttlMs) :
    (∀ (_ : cfg.config.getWebhook (resolveName cfg p name) = .ok url),
      notify cfg ⟨some c, none⟩ p name now1 (.ok ()) =
        (.delivered url (cfg.buildCard p), ⟨some (c.set k now1), none⟩) ∧
      notify cfg ⟨some (c.set k now1), none⟩ p2 name2 now2 po2 =
        (.suppressed, ⟨some (c.set k now1), none⟩)) ∧
    (∀ (bmst : BMState P) (po : Except String Unit),
      notify cfg ⟨some c, some bmst⟩ p name now1 po =
        (.enqueued (bmst.add cfg.batchOpts p name).2,
          ⟨some (c.set k now1), some (bmst.add cfg.batchOpts p name).1⟩) ∧
      notify cfg ⟨some (c.set k now1),
          some (bmst.add cfg.batchOpts p name).1⟩ p2 name2 now2 po2 =
        (.suppressed, ⟨some (c.set k now1),
          some (bmst.add cfg.batchOpts p name).1⟩)) := by
  have hhit : getEntry (c.set k now1).entries k = some (now1 + c.ttlMs) :=
    getEntry_setEntry_self c.entries k (now1 + c.ttlMs)
  constructor
  · intro hurl
    constructor
    · rw [notify_fresh_nonbatch cfg c g p name now1 (.ok ()) k hskip hg hk hne hfresh,
        sendSingle_ok_eval cfg _ p name now1 url hurl,
        markKey_eval cfg c none g p now1 k hg hk hne]
    · exact notify_suppressed_eval cfg (c.set k now1) none g p2 name2 now2 po2 k
        (now1 + c.ttlMs) hskip2 hg hk2 hne hhit ht
  · intro bmst po
    constructor
    · exact notify_fresh_batch cfg c bmst g p name now1 po k hskip hg hk hne hfresh
    · exact notify_suppressed_eval cfg (c.set k now1)
        (some (bmst.add cfg.batchOpts p name).1) g p2 name2 now2 po2 k
        (now1 + c.ttlMs) hskip2 hg hk2 hne hhit ht

/-- C1 (witness): the amended theorem applied at the concrete
configuration: after a successful non-batch delivery at t=0 (TTL 1000),
a second call at t=500 for the same key is suppressed; and after an
enqueue in batch mode, a second call before the flush is suppressed. -/
theorem notify_idempotent_suppression_witness :
    notify cfgK ⟨some ((⟨[], 1000⟩ : IdempotencyCache).set "k" 0), none⟩
        8 none 500 (.ok ()) =
      (.suppressed, ⟨some ((⟨[], 1000⟩ : IdempotencyCache).set "k" 0), none⟩) ∧
    notify cfgK ⟨some ((⟨[], 1000⟩ : IdempotencyCache).set "k" 0),
        some ((⟨[], false, true⟩ : BMState Nat).add cfgK.batchOpts 7 none).1⟩
        8 none 500 (.ok ()) =
      (.suppressed, ⟨some ((⟨[], 1000⟩ : IdempotencyCache).set "k" 0),
        some ((⟨[], false, true⟩ : BMState Nat).add cfgK.batchOpts 7 none).1⟩) :=
  ⟨((notify_idempotent_suppression_amended cfgK ⟨[], 1000⟩ (fun _ => "k") 7 8
      none none 0 500 (.ok ()) "k"
      "https://chat.googleapis.com/v1/spaces/S/messages?key=K&token=T"
      rfl rfl rfl rfl rfl (by decide) rfl (by decide)).1 rfl).2,
   ((notify_idempotent_suppression_amended cfgK ⟨[], 1000⟩ (fun _ => "k") 7 8
      none none 0 500 (.ok ()) "k"
      "https://chat.googleapis.com/v1/spaces/S/messages?key=K&token=T"
      rfl rfl rfl rfl rfl (by decide) rfl (by decide)).2
      ⟨[], false, true⟩ (.ok ())).2⟩

/-! ## C6 — batch fan-out isolation -/

/-- C6 (counterexample): the claim says a failure delivering one item of
a batch is "reported via the error callback". In the code, `sendBatch`
reports the failure with `console.error` only; the `onError` callback
declared in `NotifierOptions` is never invoked anywhere. On a one-item
batch whose delivery fails, the flush completes with the item's failure
recorded, one console-error effect and zero error-callback
invocations. -/
theorem sendBatch_error_callback_cex :
    (sendBatch cfgK ⟨some ⟨[], 1000⟩, none⟩ [⟨1, none⟩] 0
        (fun _ => .error "DeliveryError")).2.1 =
      [(1, .failed "DeliveryError")] ∧
    (sendBatch cfgK ⟨some ⟨[], 1000⟩, none⟩ [⟨1, none⟩] 0
        (fun _ => .error "DeliveryError")).2.2 =
      [.consoleError "Failed to send notification in batch: DeliveryError"] ∧
    (sendBatch cfgK ⟨some ⟨[], 1000⟩, none⟩ [⟨1, none⟩] 0
        (fun _ => .error "DeliveryError")).2.2.countP
      NotifyEffect.isOnErrorCallback = 0 := by
  refine ⟨by decide, by decide, by decide⟩

/-- C6 (amended): in the batch fan-out each item is delivered
independently — the per-item outcome is a function of that item alone
(the same as a standalone `sendSingle` from the initial state), every
item of the batch gets its own outcome in batch order even when others
fail, a failure is caught and reported as a console-error effect (never
via the `onError` callback, which the implementation never invokes),
and no failure propagates: the flush always completes with the full
per-item outcome list. -/
theorem sendBatch_isolation_amended {P E C : Type} (cfg : NotifierCfg P E C) :
    (∀ (st : NotifierState P) (batch : List (BatchItem P)) (now : Nat)
        (deliver : P → Except String Unit),
      (sendBatch cfg st batch now deliver).2.1 =
        batch.map (fun item => (item.payload,
          (sendSingle cfg st item.payload item.webhookName now
            (deliver item.payload)).1))) ∧
    (∀ (st : NotifierState P) (batch : List (BatchItem P)) (now : Nat)
        (deliver : P → Except String Unit),
      (sendBatch cfg st batch now deliver).2.1.map Prod.fst =
        batch.map BatchItem.payload) ∧
    (∀ (st : NotifierState P) (batch : List (BatchItem P)) (now : Nat)
        (deliver : P → Except String Unit),
      (sendBatch cfg st batch now deliver).2.2 =
        (sendBatch cfg st batch now deliver).2.1.filterMap (fun pr =>
          match pr.2 with
          | .failed e =>
            some (.consoleError ("Failed to send notification in batch: " ++ e))
          | _ => none)) ∧
    (∀ (st : NotifierState P) (batch : List (BatchItem P)) (now : Nat)
        (deliver : P → Except String Unit),
      (sendBatch cfg st batch now deliver).2.2.countP
        NotifyEffect.isOnErrorCallback = 0) := by
  refine ⟨?_, ?_, ?_, ?_⟩
  · intro st batch now deliver
    exact (sendBatch_spec cfg now deliver batch st).1
  · intro st batch now deliver
    rw [(sendBatch_spec cfg now deliver batch st).1, List.map_map]
    rfl
  · intro st batch now deliver
    exact (sendBatch_spec cfg now deliver batch st).2
  · intro st batch now deliver
    rw [(sendBatch_spec cfg now deliver batch st).2, List.countP_eq_zero]
    intro a ha
    rw [List.mem_filterMap] at ha
    obtain ⟨pr, hmem, hpr⟩ := ha
    cases hre : pr.2 with
    | failed e =>
      rw [hre] at hpr
      simp only [Option.some.injEq] at hpr
      rw [← hpr]
      simp [NotifyEffect.isOnErrorCallback]
    | filtered => rw [hre] at hpr; simp at hpr
    | suppressed => rw [hre] at hpr; simp at hpr
    | enqueued sched => rw [hre] at hpr; simp at hpr
    | delivered u cc => rw [hre] at hpr; simp at hpr

/-! ## C10 — poisoned key after failed batched delivery -/

/-- C10 (confirmed): in batch mode with idempotency enabled, the key is
cached at enqueue time; a later failed delivery of the batched item is
caught and logged without any cache mutation — no code path removes the
key on failure — so the key (expiry `now1 + ttl`) survives the failed
flush, and every further `notify` for the same key within the TTL
window is silently suppressed even though the event was never
delivered. -/
theorem batch_failed_delivery_suppression {P E C : Type}
    (cfg : NotifierCfg P E C) (c : IdempotencyCache) (bmst : BMState P)
    (g : P → String) (p p2 : P) (name name2 : Option String)
    (now1 nowF now2 : Nat) (po po2 : Except String Unit) (k url e : String)
    (deliver : P → Except String Unit)
    (hskip : importanceSkips cfg p = false)
    (hskip2 : importanceSkips cfg p2 = false)
    (hg : cfg.schema.getIdempotencyKey = some g)
    (hk : g p = k) (hk2 : g p2 = k) (hne : k ≠ "")
    (hfresh : getEntry c.entries k = none)
    (hbq : bmst.queue = []) (hbf : bmst.flushing = false)
    (hurl : cfg.config.getWebhook (resolveName cfg p name) = .ok url)
    (hdel : deliver p = .error e)
    (ht : now2 ≤ now1 + c.ttlMs) :
    notify cfg ⟨some c, some bmst⟩ p name now1 po =
      (.enqueued (bmst.add cfg.batchOpts p name).2,
        ⟨some (c.set k now1), some (bmst.add cfg.batchOpts p name).1⟩) ∧
    (bmst.add cfg.batchOpts p name).1.flushStart =
      (some [⟨p, name⟩],
        { (bmst.add cfg.batchOpts p name).1 with queue := [], flushing := true }) ∧
    (∀ stb : Option (BMState P),
      sendBatch cfg ⟨some (c.set k now1), stb⟩ [⟨p, name⟩] nowF deliver =
        (⟨some (c.set k now1), stb⟩, [(p, .failed e)],
          [.consoleError ("Failed to send notification in batch: " ++ e)])) ∧
    (∀ stb : Option (BMState P),
      notify cfg ⟨some (c.set k now1), stb⟩ p2 name2 now2 po2 =
        (.suppressed, ⟨some (c.set k now1), stb⟩)) := by
  have hhit : getEntry (c.set k now1).entries k = some (now1 + c.ttlMs) :=
    getEntry_setEntry_self c.entries k (now1 + c.ttlMs)
  refine ⟨?_, ?_, ?_, ?_⟩
  · exact notify_fresh_batch cfg c bmst g p name now1 po k hskip hg hk hne hfresh
  · have hq : ((bmst.add cfg.batchOpts p name).1).queue = [⟨p, name⟩] := by
      simp [BMState.add, hbq]
    have hf : ((bmst.add cfg.batchOpts p name).1).flushing = false := by
      simp [BMState.add, hbf]
    unfold BMState.flushStart
    rw [hq, hf]
    rfl
  · intro stb
    have hone : sendSingle cfg (⟨some (c.set k now1), stb⟩ : NotifierState P)
        p name nowF (deliver p) = (.failed e, ⟨some (c.set k now1), stb⟩) := by
      rw [hdel]
      exact sendSingle_err_eval cfg _ p name nowF url e hurl
    have hstep : sendBatch cfg (⟨some (c.set k now1), stb⟩ : NotifierState P)
        [⟨p, name⟩] nowF deliver =
        ((sendBatch cfg (sendSingle cfg (⟨some (c.set k now1), stb⟩ : NotifierState P)
            p name nowF (deliver p)).2 [] nowF deliver).1,
          (p, (sendSingle cfg (⟨some (c.set k now1), stb⟩ : NotifierState P)
            p name nowF (deliver p)).1) ::
            (sendBatch cfg (sendSingle cfg (⟨some (c.set k now1), stb⟩ : NotifierState P)
              p name nowF (deliver p)).2 [] nowF deliver).2.1,
          (match (sendSingle cfg (⟨some (c.set k now1), stb⟩ : NotifierState P)
              p name nowF (deliver p)).1 with
            | .failed err =>
              [NotifyEffect.consoleError
                ("Failed to send notification in batch: " ++ err)]
            | _ => ([] : List (NotifyEffect P))) ++
            (sendBatch cfg (sendSingle cfg (⟨some (c.set k now1), stb⟩ : NotifierState P)
              p name nowF (deliver p)).2 [] nowF deliver).2.2) := rfl
    rw [hstep, hone]
    rfl
  · intro stb
    exact notify_suppressed_eval cfg (c.set k now1) stb g p2 name2 now2 po2 k
      (now1 + c.ttlMs) hskip2 hg hk2 hne hhit ht

/-- C10 (witness): the theorem applied at the concrete configuration:
enqueue at t=0 caches `"k"`; the one-item flush fails with `"boom"` and
is only logged; a new call for the same key at t=500 (TTL 1000) is
suppressed although nothing was ever delivered. -/
theorem batch_failed_delivery_suppression_witness :
    notify cfgK ⟨some ⟨[], 1000⟩, some ⟨[], false, true⟩⟩ 7 none 0 (.ok ()) =
      (.enqueued ((⟨[], false, true⟩ : BMState Nat).add cfgK.batchOpts 7 none).2,
        ⟨some ((⟨[], 1000⟩ : IdempotencyCache).set "k" 0),
          some ((⟨[], false, true⟩ : BMState Nat).add cfgK.batchOpts 7 none).1⟩) ∧
    sendBatch cfgK ⟨some ((⟨[], 1000⟩ : IdempotencyCache).set "k" 0), none⟩
        [⟨7, none⟩] 100 (fun _ => .error "boom") =
      (⟨some ((⟨[], 1000⟩ : IdempotencyCache).set "k" 0), none⟩,
        [(7, .failed "boom")],
        [.consoleError ("Failed to send notification in batch: " ++ "boom")]) ∧
    notify cfgK ⟨some ((⟨[], 1000⟩ : IdempotencyCache).set "k" 0), none⟩
        8 none 500 (.ok ()) =
      (.suppressed, ⟨some ((⟨[], 1000⟩ : IdempotencyCache).set "k" 0), none⟩) :=
  ⟨(batch_failed_delivery_suppression cfgK ⟨[], 1000⟩ ⟨[], false, true⟩
      (fun _ => "k") 7 8 none none 0 100 500 (.ok ()) (.ok ()) "k"
      "https://chat.googleapis.com/v1/spaces/S/messages?key=K&token=T" "boom"
      (fun _ => .error "boom") rfl rfl rfl rfl rfl (by decide) rfl rfl rfl rfl
      rfl (by decide)).1,
   (batch_failed_delivery_suppression cfgK ⟨[], 1000⟩ ⟨[], false, true⟩
      (fun _ => "k") 7 8 none none 0 100 500 (.ok ()) (.ok ()) "k"
      "https://chat.googleapis.com/v1/spaces/S/messages?key=K&token=T" "boom"
      (fun _ => .error "boom") rfl rfl rfl rfl rfl (by decide) rfl rfl rfl rfl
      rfl (by decide)).2.2.1 none,
   (batch_failed_delivery_suppression cfgK ⟨[], 1000⟩ ⟨[], false, true⟩
      (fun _ => "k") 7 8 none none 0 100 500 (.ok ()) (.ok ()) "k"
      "https://chat.googleapis.com/v1/spaces/S/messages?key=K&token=T" "boom"
      (fun _ => .error "boom") rfl rfl rfl rfl rfl (by decide) rfl rfl rfl rfl
      rfl (by decide)).2.2.2 none⟩

end ChatNotifier
